import Mathlib

/-
Verification of the ProtoWeb data-link layer against its specification.

The development shallowly embeds the protocol engines of the repository:
the byte-stuffing codec and the Hamming SEC-DED codec of 3_LAB/main_app.py
(shared by 4_LAB/hamming_functions.py), the FCS construction and the frame
assembly/parsing paths of 3_LAB/main_app.py, the stream reassembly handler
and the CSMA/CD transmitter of 4_LAB/main_app.py.  Bits are modelled as the
naturals 0/1 exactly as the source manipulates them; bytes are naturals;
the random draws of the CSMA/CD simulation are abstracted as oracle
functions consumed draw by draw.
-/

namespace Proto

/-- Reserved bytes of the stuffing table: FLAG_START = 0x40 ('@'),
FLAG_END = 0x69 ('i', from ord('a') + N - 1 with N = 9), ESC = 0x1B. -/
def isReserved (b : Nat) : Bool := b == 64 || b == 105 || b == 27

/-- Byte stuffing (prepare_data step 5): each reserved byte is replaced by
ESC followed by that byte; all other bytes pass unchanged. -/
def stuff : List Nat → List Nat
  | [] => []
  | b :: rest => (if isReserved b then [27, b] else [b]) ++ stuff rest

/-- Byte destuffing (receive path): when the current byte and its successor
form a valid escape pair the reserved byte is emitted and the scan advances
by two, otherwise the current byte is emitted and the scan advances by one;
a dangling final byte is emitted verbatim. -/
def destuff : List Nat → List Nat
  | [] => []
  | [b] => [b]
  | a :: b :: rest =>
    if a == 27 && isReserved b then b :: destuff rest
    else a :: destuff (b :: rest)

/-- A 1-indexed codeword position holds a data bit iff it is not a power of
two (the source tests pos & (pos - 1) != 0). -/
def isDataPos (p : Nat) : Bool := p.land (p - 1) != 0

/-- The while loop computing the minimal r with 2^r >= m + r + 1, fuelled;
the fuel m + 2 always suffices because r = m + 1 satisfies the bound. -/
def findRAux (m : Nat) : Nat → Nat → Nat
  | 0, r => r
  | fuel + 1, r => if 2 ^ r < m + r + 1 then findRAux m fuel (r + 1) else r

/-- Number of standard Hamming parity bits for m data bits. -/
def findR (m : Nat) : Nat := findRAux m (m + 2) 0

/-- MSB-first bits of one byte (for i in range(7, -1, -1): (byte >> i) & 1). -/
def byteBits (b : Nat) : List Nat := (List.range 8).map (fun i => (b >>> (7 - i)) &&& 1)

/-- MSB-first byte-to-bit conversion of a byte string. -/
def toBits : List Nat → List Nat
  | [] => []
  | b :: rest => byteBits b ++ toBits rest

def packByteAux : Nat → Nat → List Nat → Nat
  | acc, _, [] => acc
  | acc, j, b :: rest => if j < 8 then packByteAux (acc ||| (b <<< (7 - j))) (j + 1) rest else acc

/-- Pack up to 8 bits (MSB first) into one byte value
(byte_val |= bit << (7 - j)). -/
def packByte (bits : List Nat) : Nat := packByteAux 0 0 bits

/-- Pack a bit list into bytes, 8 bits per byte, MSB first; a final partial
group packs its min(8, remaining) bits into the high bits of one byte. -/
def bitsToBytes : List Nat → List Nat
  | [] => []
  | [a] => [packByte [a]]
  | [a, b] => [packByte [a, b]]
  | [a, b, c] => [packByte [a, b, c]]
  | [a, b, c, d] => [packByte [a, b, c, d]]
  | [a, b, c, d, e] => [packByte [a, b, c, d, e]]
  | [a, b, c, d, e, f] => [packByte [a, b, c, d, e, f]]
  | [a, b, c, d, e, f, g] => [packByte [a, b, c, d, e, f, g]]
  | a :: b :: c :: d :: e :: f :: g :: h :: rest =>
    packByte [a, b, c, d, e, f, g, h] :: bitsToBytes rest

/-- Flip one 0-indexed bit of a codeword (corrupted[i] ^= 1). -/
def flipBit (c : List Nat) (i : Nat) : List Nat := c.set i ((c.getD i 0) ^^^ 1)

end Proto

namespace Lab3

open Proto

/-- get_sec_ded_hamming_params: (total parity bits, total code length) for
m data bits; one overall parity bit is added to the standard r. -/
def get_sec_ded_hamming_params (m : Nat) : Nat × Nat :=
  (findR m + 1, m + findR m + 1)

/-- First encoding pass: the data bits are written, in order, into the
non-power-of-two 1-indexed positions while data remains; every other
position is initialised to 0. -/
def fillData : Nat → Nat → List Nat → List Nat
  | _, 0, _ => []
  | pos, n + 1, ds =>
    if isDataPos pos then
      match ds with
      | [] => 0 :: fillData (pos + 1) n []
      | d :: rest => d :: fillData (pos + 1) n rest
    else 0 :: fillData (pos + 1) n ds

/-- XOR of the code bits at 1-indexed positions whose index has bit i set,
excluding position p itself. -/
def groupParity (code : List Nat) (i p n : Nat) : Nat :=
  (List.range n).foldl
    (fun acc j =>
      if (j + 1).testBit i && (j + 1) != p then acc ^^^ code.getD j 0 else acc) 0

/-- Second encoding pass: write the standard Hamming parity bit at each
power-of-two position 2^i (i < r) that fits in the codeword. -/
def setParities (r n : Nat) (code : List Nat) : List Nat :=
  (List.range r).foldl
    (fun c i =>
      let p := 2 ^ i
      if p ≤ n then c.set (p - 1) (groupParity c i p n) else c) code

/-- Third encoding pass: the overall parity over all positions but the last
is written at the last position. -/
def setOverall (n : Nat) (code : List Nat) : List Nat :=
  code.set (n - 1) ((code.take (n - 1)).foldl (· ^^^ ·) 0)

/-- calculate_hamming_parity_bits of 3_LAB/main_app.py (identical in
4_LAB/hamming_functions.py): data placement, power-of-two parity bits,
then the overall parity bit at the final position. -/
def calculate_hamming_parity_bits (d : List Nat) : List Nat :=
  let m := d.length
  let r := findR m
  let n := m + r + 1
  setOverall n (setParities r n (fillData 1 n d))

def hamming_encode (d : List Nat) : List Nat := calculate_hamming_parity_bits d

/-- Decoder syndrome: XOR of the 1-indexed positions of all set bits,
the overall-parity position included. -/
def syndromeOf (c : List Nat) : Nat :=
  (List.range c.length).foldl (fun acc i => if c.getD i 0 != 0 then acc ^^^ (i + 1) else acc) 0

/-- Decoder overall parity: XOR of all code bits. -/
def totalParityOf (c : List Nat) : Nat := c.foldl (· ^^^ ·) 0

/-- 3_LAB data extraction: keep the positions that are neither powers of two
nor the final (overall parity) position. -/
def extract_data_bits (c : List Nat) : List Nat :=
  ((List.range c.length).filter (fun i => isDataPos (i + 1) && (i + 1) != c.length)).map
    (fun i => c.getD i 0)

/-- hamming_decode of 3_LAB/main_app.py: syndrome and overall parity decide
between no error, correctable single error (flip the syndrome position when
it is in range), detected double error, and the defensive inconsistent case
treated as a double error. -/
def hamming_decode (c : List Nat) : List Nat × Bool × Bool :=
  let n := c.length
  let s := syndromeOf c
  let tp := totalParityOf c
  if s == 0 && tp == 0 then
    (extract_data_bits c, false, false)
  else if s != 0 && tp == 1 then
    let c' := if s ≤ n then c.set (s - 1) ((c.getD (s - 1) 0) ^^^ 1) else c
    (extract_data_bits c', true, false)
  else if s != 0 && tp == 0 then
    (extract_data_bits c, false, true)
  else
    (extract_data_bits c, false, true)

/-- DATA_LENGTH = N + 1 = 10 payload bytes per frame. -/
def DATA_LENGTH : Nat := 10

/-- FCS_LENGTH = ceil((r + 1) / 8) bytes for DATA_LENGTH * 8 data bits. -/
def FCS_LENGTH : Nat := (findR (DATA_LENGTH * 8) + 1 + 7) / 8

def padTo (l : List Nat) (len : Nat) : List Nat := l ++ List.replicate (len - l.length) 0

/-- calculate_fcs: Hamming-encode the payload bits, pack the codeword into
bytes, zero-pad, and keep only the first FCS_LENGTH bytes. -/
def calculate_fcs (data : List Nat) : List Nat :=
  (padTo (bitsToBytes (hamming_encode (toBits data))) FCS_LENGTH).take FCS_LENGTH

/-- Walk the codeword positions from 1, writing the next source bit at each
position satisfying pred while source bits remain. -/
def fillPosAux (pred : Nat → Bool) : Nat → List Nat → List Nat → List Nat
  | _, [], _ => []
  | pos, c :: rest, src =>
    if pred pos then
      match src with
      | [] => c :: fillPosAux pred (pos + 1) rest []
      | s :: srest => s :: fillPosAux pred (pos + 1) rest srest
    else c :: fillPosAux pred (pos + 1) rest src

/-- verify_fcs: rebuild a codeword with the received data bits in the
non-power-of-two positions and the received FCS bits in the power-of-two
positions, decode it, and repack the extracted data bits into bytes. -/
def verify_fcs (data fcs : List Nat) : List Nat × Bool × Bool :=
  let dataBits := toBits data
  let fcsBits := toBits fcs
  let total := (get_sec_ded_hamming_params dataBits.length).2
  let cw0 := List.replicate total 0
  let cw1 := fillPosAux (fun pos => isDataPos pos) 1 cw0 dataBits
  let cw2 := fillPosAux (fun pos => !(isDataPos pos)) 1 cw1 fcsBits
  let res := hamming_decode cw2
  (bitsToBytes res.1, res.2.1, res.2.2)

/-- Frame assembly of prepare_data for one full-length chunk when the
corruption draw selects no corruption: Flag (0x40 0x69), source address,
destination 0, then the stuffed payload-plus-FCS region. -/
def prepare_data (payload : List Nat) (addr : Nat) : List Nat :=
  [64, 105] ++ [addr] ++ [0] ++ stuff (payload ++ calculate_fcs payload)

/-- Receive path of on_data_received_1 for a buffer holding exactly one
frame starting at the flag: read the source address, destuff everything
after the 4-byte header, split into payload and FCS, and verify. -/
def parse_frame (frame : List Nat) : Nat × (List Nat × Bool × Bool) :=
  let addr := frame.getD 2 0
  let unstuffed := destuff (frame.drop 4)
  let data := unstuffed.take DATA_LENGTH
  let fcs := (unstuffed.drop DATA_LENGTH).take FCS_LENGTH
  (addr, verify_fcs data fcs)

end Lab3

namespace Lab4

open Proto

/-- 4_LAB data extraction (hamming_functions.py): keep every position that
is not a power of two; unlike 3_LAB the final position is not excluded. -/
def extract_data_bits (c : List Nat) : List Nat :=
  ((List.range c.length).filter (fun i => isDataPos (i + 1))).map (fun i => c.getD i 0)

/-- hamming_decode of 4_LAB/hamming_functions.py: same syndrome, parity and
branch structure as the 3_LAB decoder, differing only in data extraction. -/
def hamming_decode (c : List Nat) : List Nat × Bool × Bool :=
  let n := c.length
  let s := Lab3.syndromeOf c
  let tp := Lab3.totalParityOf c
  if s == 0 && tp == 0 then
    (extract_data_bits c, false, false)
  else if s != 0 && tp == 1 then
    let c' := if s ≤ n then c.set (s - 1) ((c.getD (s - 1) 0) ^^^ 1) else c
    (extract_data_bits c', true, false)
  else if s != 0 && tp == 0 then
    (extract_data_bits c, false, true)
  else
    (extract_data_bits c, false, true)

def DATA_LENGTH : Nat := 10

/-- Frame assembly of 4_LAB prepare_data for one full-length chunk:
Flag, source address, destination 0, stuffed payload (no FCS). -/
def prepare_data (payload : List Nat) (addr : Nat) : List Nat :=
  [64, 105] ++ [addr] ++ [0] ++ stuff payload

/-- bytearray.find of the two-byte flag: first index at which 0x40 is
immediately followed by 0x69. -/
def findFlagAux : Nat → List Nat → Option Nat
  | _, [] => none
  | _, [_] => none
  | i, a :: b :: rest =>
    if a == 64 && b == 105 then some i else findFlagAux (i + 1) (b :: rest)

def findFlag (buf : List Nat) : Option Nat := findFlagAux 0 buf

/-- The trailing k bytes of a buffer (buffer[-k:]). -/
def lastN (k : Nat) (l : List Nat) : List Nat := l.drop (l.length - k)

/-- One execution of the frame-scanning while loop of on_data_received_1 of
4_LAB/main_app.py, fuelled by the iteration count: find the flag (trimming
an overlong flagless buffer to its last 50 bytes), require the minimum
frame size, destuff everything after the header, deliver the first
DATA_LENGTH unstuffed bytes, drop start_index + 4 + len(raw) bytes, and
loop.  Returns the delivered payloads and the final buffer. -/
def onDataAux : Nat → List Nat → List (List Nat) → List (List Nat) × List Nat
  | 0, buf, acc => (acc.reverse, buf)
  | fuel + 1, buf, acc =>
    match findFlag buf with
    | none =>
      if buf.length > 100 then (acc.reverse, lastN 50 buf) else (acc.reverse, buf)
    | some idx =>
      if buf.length - idx < 4 + DATA_LENGTH then (acc.reverse, buf)
      else
        let raw := (buf.drop idx).drop 4
        let unstuffed := destuff raw
        if unstuffed.length < DATA_LENGTH then (acc.reverse, buf)
        else
          let payload := unstuffed.take DATA_LENGTH
          let consumed := idx + 4 + raw.length
          let newBuf := if consumed ≤ buf.length then buf.drop consumed else []
          onDataAux fuel newBuf (payload :: acc)

/-- on_data_received_1 applied to a freshly extended buffer; the fuel
buf.length + 1 dominates the number of loop iterations because every
processed frame strictly shrinks the buffer. -/
def on_data_received_1 (buf : List Nat) : List (List Nat) × List Nat :=
  onDataAux (buf.length + 1) buf []

/-- The contention window of generate_backoff_time:
cw = max(CW_MIN = 7, min(2^min(collision_count, 10) - 1, CW_MAX = 1023)). -/
def contention_window (collision_count : Nat) : Nat :=
  let k := min collision_count 10
  let cw := min (2 ^ k - 1) 1023
  max 7 cw

/-- generate_backoff_time with the uniform draw over [0, cw] abstracted as
an oracle draw with draw cw ≤ cw; the result is the drawn slot count times
the 5 ms slot duration. -/
def generate_backoff_time (collision_count : Nat) (draw : Nat → Nat) : Nat :=
  draw (contention_window collision_count) * 5

/-- The per-byte collision scan of one transmission attempt: index of the
first byte whose collision draw fires, if any; the oracle is consumed one
draw per byte starting at stream position c. -/
def firstCollision (coll : Nat → Bool) : Nat → Nat → Option Nat
  | _, 0 => none
  | c, len + 1 => if coll c then some 0 else (firstCollision coll (c + 1) len).map (· + 1)

/-- The retry loop of transmit_with_csma_cd, fuelled by the iteration
count.  State: retry count, collision count, positions consumed so far in
the channel-sense stream and in the collision stream.  A busy sense retries
without touching the retry count; a clear sense starts a byte-by-byte
attempt; a collision consumes the draws up to it, bumps both counters and
loops; a collision-free attempt returns success.  Sixteen retries return
failure.  The result carries the final retry count. -/
def transmitAux (busy coll : Nat → Bool) (len : Nat) :
    Nat → Nat → Nat → Nat → Nat → Option (Bool × Nat)
  | 0, _, _, _, _ => none
  | fuel + 1, retry, cc, s, c =>
    if 16 ≤ retry then some (false, retry)
    else if busy s then transmitAux busy coll len fuel retry cc (s + 1) c
    else
      match firstCollision coll c len with
      | none => some (true, retry)
      | some j => transmitAux busy coll len fuel (retry + 1) (cc + 1) (s + 1) (c + j + 1)

/-- transmit_with_csma_cd on a frame of len bytes under the given sense and
collision oracles, with the stated fuel. -/
def transmit_with_csma_cd (busy coll : Nat → Bool) (len fuel : Nat) : Option (Bool × Nat) :=
  transmitAux busy coll len fuel 0 0 0 0

/-- Non-termination of the retry loop under given oracles: no amount of
fuel makes the loop return. -/
def transmitDiverges (busy coll : Nat → Bool) (len : Nat) : Prop :=
  ∀ fuel, transmit_with_csma_cd busy coll len fuel = none

end Lab4

-- ======================================================================
-- Theorems
-- ======================================================================

open Proto

/-- If a byte is not reserved, destuffing a stream that starts with it
emits the byte and continues, since no escape pair starts with it. -/
theorem destuff_cons_of_not_reserved (b : Nat) (hb : isReserved b = false) (l : List Nat) :
    destuff (b :: l) = b :: destuff l := by
  have hb27 : (b == 27) = false := by
    by_cases h : b = 27
    · subst h; exact absurd hb (by decide)
    · exact beq_eq_false_iff_ne.mpr h
  cases l with
  | nil => rfl
  | cons c rest => simp [destuff, hb27]

/-- C5: destuffing inverts stuffing — for every byte sequence x,
destuff (stuff x) = x. -/
theorem C5_destuff_stuff_roundtrip (x : List Nat) : destuff (stuff x) = x := by
  induction x with
  | nil => rfl
  | cons b t ih =>
    by_cases hb : isReserved b = true
    · simp [stuff, hb, destuff, ih]
    · have hb' : isReserved b = false := by simpa using hb
      simp [stuff, hb', destuff_cons_of_not_reserved b hb', ih]

/-- Stuffing distributes over concatenation. -/
theorem stuff_append (a b : List Nat) : stuff (a ++ b) = stuff a ++ stuff b := by
  induction a with
  | nil => rfl
  | cons x t ih => simp [stuff, ih]

/-- C9 counterexample: the payload holding the flag-start byte stuffs to a
region one byte longer than the all-zero payload of the same length, not
two bytes longer as claimed. -/
theorem C9_cex_stuffed_length_not_two_longer :
    ¬ (stuff [64, 0, 0, 0, 0, 0, 0, 0, 0, 0]).length
      = (stuff [0, 0, 0, 0, 0, 0, 0, 0, 0, 0]).length + 2 := by
  decide

/-- C9 (amended): for two same-length payloads identical except at one
position where one holds the flag-start byte 0x40 and the other a
non-reserved byte, the stuffed region of the former is exactly one byte
longer than that of the latter. -/
theorem C9_stuffed_length_one_longer (a b : List Nat) (c : Nat)
    (hc : isReserved c = false) :
    (stuff (a ++ 64 :: b)).length = (stuff (a ++ c :: b)).length + 1 := by
  have h64 : isReserved 64 = true := rfl
  simp [stuff_append, stuff, h64, hc, List.length_append]
  omega

/-- C9 witness: the amended statement at the concrete payloads
[64, 5] and [0, 5]. -/
theorem C9_stuffed_length_one_longer_witness :
    isReserved 0 = false ∧
    (stuff ([] ++ 64 :: [5])).length = (stuff ([] ++ 0 :: [5])).length + 1 :=
  ⟨by decide, C9_stuffed_length_one_longer [] [5] 0 (by decide)⟩

/-- C1: the claim says hamming_decode (hamming_encode d) = (d, false, false)
for every d; on the code, for d = [1] the encoder's overall-parity bit at
the final 1-indexed position n = 4 contributes n to the decoder's syndrome,
so the uncorrupted codeword [1,1,1,1] decodes with double_error = true. -/
theorem C1_roundtrip_reports_double_error :
    Lab3.hamming_decode (Lab3.hamming_encode [1]) = ([1], false, true) := by
  decide

/-- C3: the claim says decoding with exactly one flipped bit returns
(d, true, false); on the code, for d = [1] and flip index 2 the syndrome
7 = n xor 3 points outside the codeword, the decoder corrects nothing,
and the extracted data [0] differs from d = [1]. -/
theorem C3_single_flip_returns_wrong_data :
    Lab3.hamming_decode (flipBit (Lab3.hamming_encode [1]) 2) = ([0], true, false) := by
  decide

/-- C4: the claim says decoding with two distinct flipped bits reports
double_error = true; on the code, for d = [1,0] flipping indices 1 and 3
cancels the overall-parity contribution (syndrome 6 xor 2 xor 4 = 0), so
the decoder reports no error at all. -/
theorem C4_double_flip_not_detected :
    Lab3.hamming_decode (flipBit (flipBit (Lab3.hamming_encode [1, 0]) 1) 3)
      = ([1, 0], false, false) := by
  decide

/-- C10: the claim says the two decoders agree and both exclude the final
overall-parity position from the extracted data; on the codeword [1,1,0]
the 3_LAB decoder returns no data bits while the 4_LAB decoder returns the
final position as a data bit, so the triples differ. -/
theorem C10_decoders_disagree_on_final_position :
    Lab3.hamming_decode [1, 1, 0] = ([], false, true) ∧
    Lab4.hamming_decode [1, 1, 0] = ([0], false, true) := by
  constructor <;> decide

set_option maxRecDepth 100000 in
/-- C2: the claim says parsing an uncorrupted prepared frame yields the
source address, the payload, and the Valid FCS state; on the code, for the
payload "Hi" zero-padded to 10 bytes and source address 5 the frame parses
to the right address and payload but with double_error = true, because
calculate_fcs truncates the 88-bit codeword to its first byte while
verify_fcs reinstalls those bits into the parity positions. -/
theorem C2_parse_prepared_frame_not_valid :
    Lab3.parse_frame (Lab3.prepare_data [72, 105, 0, 0, 0, 0, 0, 0, 0, 0] 5)
      = (5, ([72, 105, 0, 0, 0, 0, 0, 0, 0, 0], false, true)) := by
  decide

/-- C6: the claim says the handler removes exactly the parsed frame's bytes
and also parses a second complete frame in the same buffer; on the code,
with two complete back-to-back frames the handler consumes everything after
the first flag, delivers only the first payload, and empties the buffer. -/
theorem C6_second_frame_dropped :
    Lab4.on_data_received_1
        (Lab4.prepare_data [1, 2, 3, 4, 5, 6, 7, 8, 9, 10] 7
          ++ Lab4.prepare_data [11, 12, 13, 14, 15, 16, 17, 18, 19, 20] 7)
      = ([[1, 2, 3, 4, 5, 6, 7, 8, 9, 10]], []) := by
  decide

/-- C8: generate_backoff_time equals the drawn slot count times 5 ms, the
contention window follows the clamped exponential formula, the delay never
exceeds CW_MAX * 5 = 5115 ms, and the window is non-decreasing in the
collision count. -/
theorem C8_generate_backoff_time_spec (c : Nat) (draw : Nat → Nat)
    (hdraw : ∀ x, draw x ≤ x) :
    Lab4.generate_backoff_time c draw = draw (Lab4.contention_window c) * 5 ∧
    Lab4.contention_window c = max 7 (min (2 ^ min c 10 - 1) 1023) ∧
    Lab4.generate_backoff_time c draw ≤ 1023 * 5 ∧
    (∀ c₂, c ≤ c₂ → Lab4.contention_window c ≤ Lab4.contention_window c₂) := by
  refine ⟨rfl, rfl, ?_, ?_⟩
  · have e1 : Lab4.contention_window c = max 7 (min (2 ^ min c 10 - 1) 1023) := rfl
    have h1 : Lab4.contention_window c ≤ 1023 := by rw [e1]; omega
    have h2 := hdraw (Lab4.contention_window c)
    have h3 : Lab4.generate_backoff_time c draw = draw (Lab4.contention_window c) * 5 := rfl
    omega
  · intro c₂ hc
    have e1 : Lab4.contention_window c = max 7 (min (2 ^ min c 10 - 1) 1023) := rfl
    have e2 : Lab4.contention_window c₂ = max 7 (min (2 ^ min c₂ 10 - 1) 1023) := rfl
    rw [e1, e2]
    have hk : min c 10 ≤ min c₂ 10 := by omega
    have hp : 2 ^ min c 10 ≤ 2 ^ min c₂ 10 :=
      Nat.pow_le_pow_right (by norm_num) hk
    omega

/-- C8 witness: the specification at collision count 3 with the draw that
always returns 0. -/
theorem C8_generate_backoff_time_spec_witness :
    (∀ x : Nat, (fun _ : Nat => 0) x ≤ x) ∧
    (Lab4.generate_backoff_time 3 (fun _ => 0)
        = (fun _ : Nat => 0) (Lab4.contention_window 3) * 5 ∧
      Lab4.contention_window 3 = max 7 (min (2 ^ min 3 10 - 1) 1023) ∧
      Lab4.generate_backoff_time 3 (fun _ => 0) ≤ 1023 * 5 ∧
      (∀ c₂, 3 ≤ c₂ → Lab4.contention_window 3 ≤ Lab4.contention_window c₂)) :=
  ⟨fun x => Nat.zero_le x,
    C8_generate_backoff_time_spec 3 (fun _ => 0) (fun x => Nat.zero_le x)⟩

/-- Under a channel sensed busy at every poll the retry loop never makes
progress: the retry counter stays below the budget forever. -/
theorem transmitAux_busy_forever (coll : Nat → Bool) (len : Nat) :
    ∀ fuel retry cc s c, retry < 16 →
      Lab4.transmitAux (fun _ => true) coll len fuel retry cc s c = none := by
  intro fuel
  induction fuel with
  | zero => intro retry cc s c _; rfl
  | succ n ih =>
    intro retry cc s c h
    have h16 : ¬ 16 ≤ retry := by omega
    simp [Lab4.transmitAux, h16, ih retry cc (s + 1) c h]

/-- C7 counterexample: for the oracle sequence that senses the channel busy
at every poll, transmit_with_csma_cd on a 1-byte frame never terminates,
refuting the claim that it terminates for every sequence of channel-sensing
and collision outcomes. -/
theorem C7_cex_busy_channel_diverges :
    Lab4.transmitDiverges (fun _ => true) (fun _ => false) 1 := fun fuel =>
  transmitAux_busy_forever (fun _ => false) 1 fuel 0 0 0 0 (by omega)

/-- With a clear channel the fuelled loop always returns within the retry
budget, and the reported retry count never exceeds 16. -/
theorem transmitAux_terminates (coll : Nat → Bool) (len : Nat) :
    ∀ fuel retry cc s c, retry ≤ 16 → 17 - retry ≤ fuel →
      ∃ b k, Lab4.transmitAux (fun _ => false) coll len fuel retry cc s c = some (b, k)
        ∧ k ≤ 16 := by
  intro fuel
  induction fuel with
  | zero => intro retry cc s c h1 h2; omega
  | succ n ih =>
    intro retry cc s c h1 h2
    by_cases h16 : 16 ≤ retry
    · exact ⟨false, retry, by simp [Lab4.transmitAux, h16], h1⟩
    · cases hfc : Lab4.firstCollision coll c len with
      | none =>
        exact ⟨true, retry, by simp [Lab4.transmitAux, h16, hfc], h1⟩
      | some j =>
        obtain ⟨b, k, hk, hk16⟩ :=
          ih (retry + 1) (cc + 1) (s + 1) (c + j + 1) (by omega) (by omega)
        exact ⟨b, k, by simp [Lab4.transmitAux, h16, hfc, hk], hk16⟩

/-- With a clear channel and a collision draw that always fires, every
attempt on a nonempty frame collides at its first byte and the loop exits
with failure exactly when the retry count reaches 16. -/
theorem transmitAux_all_collisions (coll : Nat → Bool) (len : Nat)
    (hlen : 0 < len) (hcoll : ∀ i, coll i = true) :
    ∀ fuel retry cc s c, retry ≤ 16 → 17 - retry ≤ fuel →
      Lab4.transmitAux (fun _ => false) coll len fuel retry cc s c = some (false, 16) := by
  have hfc : ∀ c, Lab4.firstCollision coll c len = some 0 := by
    intro c
    cases len with
    | zero => omega
    | succ l => simp [Lab4.firstCollision, hcoll c]
  intro fuel
  induction fuel with
  | zero => intro retry cc s c h1 h2; omega
  | succ n ih =>
    intro retry cc s c h1 h2
    by_cases h16 : 16 ≤ retry
    · have hr : retry = 16 := by omega
      subst hr
      simp [Lab4.transmitAux]
    · have hrec := ih (retry + 1) (cc + 1) (s + 1) (c + 0 + 1) (by omega) (by omega)
      simp [Lab4.transmitAux, h16, hfc c, hrec]

/-- A successful return of the fuelled loop exhibits a window of the
collision stream on which no per-byte draw fired. -/
theorem transmitAux_success (coll : Nat → Bool) (len : Nat) :
    ∀ fuel retry cc s c k,
      Lab4.transmitAux (fun _ => false) coll len fuel retry cc s c = some (true, k) →
      ∃ c₀, Lab4.firstCollision coll c₀ len = none := by
  intro fuel
  induction fuel with
  | zero => intro retry cc s c k h; simp [Lab4.transmitAux] at h
  | succ n ih =>
    intro retry cc s c k h
    by_cases h16 : 16 ≤ retry
    · simp [Lab4.transmitAux, h16] at h
    · cases hfc : Lab4.firstCollision coll c len with
      | none => exact ⟨c, hfc⟩
      | some j =>
        simp [Lab4.transmitAux, h16, hfc] at h
        exact ih _ _ _ _ _ h

/-- An empty collision scan means every per-byte draw in the window was
collision-free. -/
theorem firstCollision_none_iff_window (coll : Nat → Bool) :
    ∀ len c, Lab4.firstCollision coll c len = none →
      ∀ j, j < len → coll (c + j) = false := by
  intro len
  induction len with
  | zero => intro c _ j hj; omega
  | succ l ih =>
    intro c h j hj
    by_cases hc : coll c
    · simp [Lab4.firstCollision, hc] at h
    · have hc' : coll c = false := by simpa using hc
      have hrest : Lab4.firstCollision coll (c + 1) l = none := by
        simp [Lab4.firstCollision, hc'] at h
        exact h
      cases j with
      | zero => simpa using hc'
      | succ j₂ =>
        have := ih (c + 1) hrest j₂ (by omega)
        have e : c + 1 + j₂ = c + (j₂ + 1) := by omega
        rwa [e] at this

/-- C7 (amended): for every nonempty frame and collision oracle, when every
channel sensing reports the channel clear, transmit_with_csma_cd with fuel
17 terminates with a retry count of at most 16; if every collision draw
fires it returns Failure with exactly 16 attempts; and a Success return
exhibits an attempt whose per-byte collision draws were all clear.  (The
unamended claim fails because a channel sensed busy forever starves the
loop without consuming the retry budget.) -/
theorem C7_transmit_with_csma_cd_spec (coll : Nat → Bool) (len : Nat) (hlen : 0 < len) :
    (∃ b k, Lab4.transmit_with_csma_cd (fun _ => false) coll len 17 = some (b, k) ∧ k ≤ 16) ∧
    ((∀ i, coll i = true) →
      Lab4.transmit_with_csma_cd (fun _ => false) coll len 17 = some (false, 16)) ∧
    (∀ k, Lab4.transmit_with_csma_cd (fun _ => false) coll len 17 = some (true, k) →
      ∃ c, ∀ j, j < len → coll (c + j) = false) := by
  refine ⟨?_, ?_, ?_⟩
  · exact transmitAux_terminates coll len 17 0 0 0 0 (by omega) (by omega)
  · intro hc
    exact transmitAux_all_collisions coll len hlen hc 17 0 0 0 0 (by omega) (by omega)
  · intro k hk
    obtain ⟨c₀, hc₀⟩ := transmitAux_success coll len 17 0 0 0 0 k hk
    exact ⟨c₀, fun j hj => firstCollision_none_iff_window coll len c₀ hc₀ j hj⟩

/-- C7 witness: the amended statement for a 1-byte frame under the
collision oracle that always fires. -/
theorem C7_transmit_with_csma_cd_spec_witness :
    0 < 1 ∧
    ((∃ b k, Lab4.transmit_with_csma_cd (fun _ => false) (fun _ => true) 1 17 = some (b, k)
        ∧ k ≤ 16) ∧
      ((∀ i, (fun _ : Nat => true) i = true) →
        Lab4.transmit_with_csma_cd (fun _ => false) (fun _ => true) 1 17 = some (false, 16)) ∧
      (∀ k, Lab4.transmit_with_csma_cd (fun _ => false) (fun _ => true) 1 17 = some (true, k) →
        ∃ c, ∀ j, j < 1 → (fun _ : Nat => true) (c + j) = false)) :=
  ⟨by decide, C7_transmit_with_csma_cd_spec (fun _ => true) 1 (by decide)⟩
